import Mathlib

/-!
Verification of the pwa-utils browser-debugging utilities.

This file gives a shallow embedding of the hand-written core of the
repository — the bounded append log (sync-log service and session store),
the session recorder's in-memory document, the shake-gesture detector,
the version-check service and the bug-report URL builder — and proves the
behavioural properties stated in the specification against it.

IndexedDB object stores are modelled as lists of records with unique keys;
a secondary index is modelled by sorting on (index key, primary key), which
is exactly IndexedDB's index iteration order.  Asynchronous code is
modelled by explicit state passing, with the synchronous prefix of an
async function separated from its continuation where interleaving matters.
-/

namespace PwaUtils

/-! ## Bounded append log: sync-log store (src/unnamed/part_017)

The store has keyPath "id" and a secondary index on "timestamp". -/

/-- A sync-log entry as stored in the "syncLogs" object store. -/
structure SyncLog where
  id : Nat
  timestamp : Int
  message : String
deriving DecidableEq

/-- Iteration order of the "timestamp" index: ascending by timestamp,
ties broken by the primary key, as IndexedDB does. -/
def logIdxLe (a b : SyncLog) : Prop :=
  a.timestamp < b.timestamp ∨ (a.timestamp = b.timestamp ∧ a.id ≤ b.id)

instance logIdxLe.decRel : DecidableRel logIdxLe := fun a b =>
  inferInstanceAs (Decidable (a.timestamp < b.timestamp ∨ (a.timestamp = b.timestamp ∧ a.id ≤ b.id)))

instance logIdxLe.total : IsTotal SyncLog logIdxLe := by
  constructor
  intro a b
  rcases lt_trichotomy a.timestamp b.timestamp with h | h | h
  · exact Or.inl (Or.inl h)
  · rcases Nat.le_total a.id b.id with h2 | h2
    · exact Or.inl (Or.inr ⟨h, h2⟩)
    · exact Or.inr (Or.inr ⟨h.symm, h2⟩)
  · exact Or.inr (Or.inl h)

instance logIdxLe.trans : IsTrans SyncLog logIdxLe := by
  constructor
  intro a b c hab hbc
  rcases hab with h1 | ⟨h1, h1'⟩
  · rcases hbc with h2 | ⟨h2, _⟩
    · exact Or.inl (h1.trans h2)
    · exact Or.inl (h2 ▸ h1)
  · rcases hbc with h2 | ⟨h2, h2'⟩
    · exact Or.inl (h1 ▸ h2)
    · exact Or.inr ⟨h1.trans h2, h1'.trans h2'⟩

/-- Contents of the "timestamp" index cursor opened with direction "next"
(oldest first). -/
def sortByTimestamp (store : List SyncLog) : List SyncLog :=
  List.insertionSort logIdxLe store

/-- SyncLogService.enforceLimit (part_017 lines 146-192): inside one
readwrite transaction, count the store; if the count exceeds maxLogs,
walk the timestamp index oldest-first collecting the first
(count - maxLogs) ids, then delete each collected id. -/
def enforceLimit (maxLogs : Nat) (store : List SyncLog) : List SyncLog :=
  let count := store.length
  if count ≤ maxLogs then store
  else
    let toDelete := count - maxLogs
    let idsToDelete := ((sortByTimestamp store).take toDelete).map SyncLog.id
    store.filter fun e => decide (e.id ∉ idsToDelete)

/-! ## Bounded append log: session store (src/unnamed/part_007)

The store has keyPath "sessionId" and a secondary index on "startTime". -/

/-- A persisted session record, keyed by sessionId with a secondary index
on startTime. -/
structure SessionRec where
  sessionId : Nat
  startTime : Int
deriving DecidableEq

/-- Iteration order of the "startTime" index: ascending by startTime,
ties broken by the primary key. -/
def sessIdxLe (a b : SessionRec) : Prop :=
  a.startTime < b.startTime ∨ (a.startTime = b.startTime ∧ a.sessionId ≤ b.sessionId)

instance sessIdxLe.decRel : DecidableRel sessIdxLe := fun a b =>
  inferInstanceAs (Decidable (a.startTime < b.startTime ∨ (a.startTime = b.startTime ∧ a.sessionId ≤ b.sessionId)))

instance sessIdxLe.total : IsTotal SessionRec sessIdxLe := by
  constructor
  intro a b
  rcases lt_trichotomy a.startTime b.startTime with h | h | h
  · exact Or.inl (Or.inl h)
  · rcases Nat.le_total a.sessionId b.sessionId with h2 | h2
    · exact Or.inl (Or.inr ⟨h, h2⟩)
    · exact Or.inr (Or.inr ⟨h.symm, h2⟩)
  · exact Or.inr (Or.inl h)

instance sessIdxLe.trans : IsTrans SessionRec sessIdxLe := by
  constructor
  intro a b c hab hbc
  rcases hab with h1 | ⟨h1, h1'⟩
  · rcases hbc with h2 | ⟨h2, _⟩
    · exact Or.inl (h1.trans h2)
    · exact Or.inl (h2 ▸ h1)
  · rcases hbc with h2 | ⟨h2, h2'⟩
    · exact Or.inl (h1 ▸ h2)
    · exact Or.inr ⟨h1.trans h2, h1'.trans h2'⟩

/-- Contents of the "startTime" index, oldest first. -/
def sortByStartTime (store : List SessionRec) : List SessionRec :=
  List.insertionSort sessIdxLe store

/-- pruneOldSessions (part_007 lines 152-191): walk the startTime index
newest-first ("prev" cursor) counting records; every record past the
first maxSessions has its sessionId collected; the collected ids are then
deleted in the same transaction. -/
def pruneOldSessions (maxSessions : Nat) (store : List SessionRec) : List SessionRec :=
  let desc := (sortByStartTime store).reverse
  let toDelete := (desc.drop maxSessions).map SessionRec.sessionId
  store.filter fun e => decide (e.sessionId ∉ toDelete)

/-! ### Generic pruning lemmas shared by both stores -/

/-- Deleting, from a keyed store, every record whose key occurs among the
keys of the first k records in index order leaves exactly the records
past position k of the index, up to store order. -/
theorem filter_not_mem_take_map_perm {α : Type} [DecidableEq α] (key : α → Nat)
    (s srt : List α) (k : Nat) (hperm : srt.Perm s) (hnd : (s.map key).Nodup) :
    (s.filter fun e => decide (key e ∉ (srt.take k).map key)).Perm (srt.drop k) := by
  have hndsrt : (srt.map key).Nodup := ((hperm.map key).nodup_iff).mpr hnd
  have hnds : s.Nodup := hnd.of_map
  have hndsrt' : srt.Nodup := hperm.nodup_iff.mpr hnds
  have hsplit : srt = srt.take k ++ srt.drop k := (List.take_append_drop k srt).symm
  have hdisj : ((srt.take k).map key).Disjoint ((srt.drop k).map key) := by
    have : ((srt.take k).map key ++ (srt.drop k).map key).Nodup := by
      rw [← List.map_append, ← hsplit]; exact hndsrt
    exact (List.nodup_append.mp this).2.2
  apply List.perm_of_nodup_nodup_toFinset_eq
  · exact List.Nodup.filter _ hnds
  · exact hndsrt'.sublist (List.drop_sublist k srt)
  · ext a
    simp only [List.mem_toFinset, List.mem_filter, decide_eq_true_eq]
    constructor
    · rintro ⟨ha, hnot⟩
      have : a ∈ srt := hperm.mem_iff.mpr ha
      rw [hsplit] at this
      rcases List.mem_append.mp this with h | h
      · exact absurd (List.mem_map_of_mem key h) hnot
      · exact h
    · intro ha
      have hmem : a ∈ srt := hsplit ▸ List.mem_append.mpr (Or.inr ha)
      refine ⟨hperm.mem_iff.mp hmem, fun hk => ?_⟩
      exact hdisj hk (List.mem_map_of_mem key ha)

/-- The pruning filter of pruneOldSessions (stated over the ids past the
first maxSessions of the descending cursor) coincides with the filter
over the ids of the oldest (length - maxSessions) of the ascending index. -/
theorem pruneOldSessions_eq_filter_take (maxSessions : Nat) (store : List SessionRec) :
    pruneOldSessions maxSessions store =
      store.filter fun e =>
        decide (e.sessionId ∉
          (((sortByStartTime store).take (store.length - maxSessions)).map SessionRec.sessionId)) := by
  unfold pruneOldSessions
  apply List.filter_congr
  intro a _
  simp only [decide_eq_decide]
  have hlen : (sortByStartTime store).length = store.length :=
    (List.perm_insertionSort sessIdxLe store).length_eq
  have hrev : (sortByStartTime store).reverse.drop maxSessions
      = ((sortByStartTime store).take ((sortByStartTime store).length - maxSessions)).reverse := by
    have h := List.rdrop_eq_reverse_drop_reverse (l := sortByStartTime store) (n := maxSessions)
    rw [List.rdrop] at h
    rw [h, List.reverse_reverse]
  rw [hrev, hlen, List.map_reverse, List.mem_reverse]

/-- C1: with pairwise-distinct timestamps and capacity M below the current
count N, capacity enforcement (SyncLogService.enforceLimit and
pruneOldSessions alike) deletes exactly the N - M oldest entries of the
timestamp-ordered index, leaving exactly the M newest and a count of M.
The first and fourth conjuncts record that the modelled index really is
timestamp-ordered. -/
theorem enforceLimit_pruneOldSessions_capacity
    (store : List SyncLog) (sessions : List SessionRec) (M Ms : Nat)
    (hid : (store.map SyncLog.id).Nodup)
    (hts : (store.map SyncLog.timestamp).Nodup)
    (hM : M < store.length)
    (hsid : (sessions.map SessionRec.sessionId).Nodup)
    (hsts : (sessions.map SessionRec.startTime).Nodup)
    (hMs : Ms < sessions.length) :
    List.Sorted logIdxLe (sortByTimestamp store) ∧
    (enforceLimit M store).Perm ((sortByTimestamp store).drop (store.length - M)) ∧
    (enforceLimit M store).length = M ∧
    List.Sorted sessIdxLe (sortByStartTime sessions) ∧
    (pruneOldSessions Ms sessions).Perm
      ((sortByStartTime sessions).drop (sessions.length - Ms)) ∧
    (pruneOldSessions Ms sessions).length = Ms := by
  have hperm1 : (sortByTimestamp store).Perm store :=
    List.perm_insertionSort logIdxLe store
  have hperm2 : (sortByStartTime sessions).Perm sessions :=
    List.perm_insertionSort sessIdxLe sessions
  have hnotle : ¬ store.length ≤ M := not_le.mpr hM
  have hel : enforceLimit M store
      = store.filter fun e =>
          decide (e.id ∉ (((sortByTimestamp store).take (store.length - M)).map SyncLog.id)) := by
    unfold enforceLimit
    rw [if_neg hnotle]
  have hpm1 : (enforceLimit M store).Perm
      ((sortByTimestamp store).drop (store.length - M)) := by
    rw [hel]
    exact filter_not_mem_take_map_perm SyncLog.id store _ _ hperm1 hid
  have hpm2 : (pruneOldSessions Ms sessions).Perm
      ((sortByStartTime sessions).drop (sessions.length - Ms)) := by
    rw [pruneOldSessions_eq_filter_take]
    exact filter_not_mem_take_map_perm SessionRec.sessionId sessions _ _ hperm2 hsid
  refine ⟨List.sorted_insertionSort logIdxLe store, hpm1, ?_,
    List.sorted_insertionSort sessIdxLe sessions, hpm2, ?_⟩
  · rw [hpm1.length_eq, List.length_drop, hperm1.length_eq]
    omega
  · rw [hpm2.length_eq, List.length_drop, hperm2.length_eq]
    omega

/-- Witness for C1 at a concrete store of three logs with capacity one and
three sessions with capacity two. -/
theorem enforceLimit_pruneOldSessions_capacity_witness :
    (([⟨1, 5, "a"⟩, ⟨2, 3, "b"⟩, ⟨3, 9, "c"⟩] : List SyncLog).map SyncLog.id).Nodup ∧
    (([⟨1, 5, "a"⟩, ⟨2, 3, "b"⟩, ⟨3, 9, "c"⟩] : List SyncLog).map SyncLog.timestamp).Nodup ∧
    1 < ([⟨1, 5, "a"⟩, ⟨2, 3, "b"⟩, ⟨3, 9, "c"⟩] : List SyncLog).length ∧
    (([⟨1, 10⟩, ⟨2, 4⟩, ⟨3, 7⟩] : List SessionRec).map SessionRec.sessionId).Nodup ∧
    (([⟨1, 10⟩, ⟨2, 4⟩, ⟨3, 7⟩] : List SessionRec).map SessionRec.startTime).Nodup ∧
    2 < ([⟨1, 10⟩, ⟨2, 4⟩, ⟨3, 7⟩] : List SessionRec).length ∧
    ((enforceLimit 1 [⟨1, 5, "a"⟩, ⟨2, 3, "b"⟩, ⟨3, 9, "c"⟩]).length = 1 ∧
      (pruneOldSessions 2 [⟨1, 10⟩, ⟨2, 4⟩, ⟨3, 7⟩]).length = 2) :=
  ⟨by decide, by decide, by decide, by decide, by decide, by decide,
    (enforceLimit_pruneOldSessions_capacity
      [⟨1, 5, "a"⟩, ⟨2, 3, "b"⟩, ⟨3, 9, "c"⟩] [⟨1, 10⟩, ⟨2, 4⟩, ⟨3, 7⟩] 1 2
      (by decide) (by decide) (by decide) (by decide) (by decide) (by decide)).2.2.1,
    (enforceLimit_pruneOldSessions_capacity
      [⟨1, 5, "a"⟩, ⟨2, 3, "b"⟩, ⟨3, 9, "c"⟩] [⟨1, 10⟩, ⟨2, 4⟩, ⟨3, 7⟩] 1 2
      (by decide) (by decide) (by decide) (by decide) (by decide) (by decide)).2.2.2.2.2⟩

/-! ## Session recorder in-memory document
(src/src/session-recorder/session-recorder.ts) -/

/-- A recorded user interaction (session-recorder types.ts). -/
structure InteractionEvent where
  type : String
  timestamp : Int
  target : String
deriving DecidableEq

/-- JavaScript Array.prototype.slice with a negative start index, as in
interactions.slice(-cap): the last cap elements — except that slice(-0)
is slice(0), the whole array. -/
def sliceNeg {α : Type} (cap : Nat) (l : List α) : List α :=
  if cap = 0 then l else l.drop (l.length - cap)

/-- The last cap elements of a list. -/
def takeLast {α : Type} (cap : Nat) (l : List α) : List α :=
  l.drop (l.length - cap)

/-- Effect of SessionRecorder.recordInteraction (lines 380-388) on the
contents of the interactions array: push the event, then if the length
exceeds maxInteractions keep only slice(-maxInteractions). -/
def recordInteractionStep (cap : Nat) (l : List InteractionEvent)
    (e : InteractionEvent) : List InteractionEvent :=
  let pushed := l ++ [e]
  if cap < pushed.length then sliceNeg cap pushed else pushed

/-- In-memory state of a SessionRecorder with JavaScript array aliasing
made explicit: arrays live in a heap addressed by allocation ids and
this.recording.interactions holds a reference into that heap.  A push
mutates the referenced array in place; slice allocates a fresh array. -/
structure RecorderState where
  heap : Nat → List InteractionEvent
  arrId : Nat
  nextId : Nat

/-- A freshly constructed recorder: createNewRecording gives
interactions the empty array. -/
def initialRecorder : RecorderState :=
  { heap := fun _ => [], arrId := 0, nextId := 1 }

/-- SessionRecorder.recordInteraction (lines 380-388): push the event onto
the current interactions array in place; if the array now exceeds
maxInteractions, rebind this.recording.interactions to the fresh array
interactions.slice(-maxInteractions). -/
def recordInteraction (cap : Nat) (e : InteractionEvent)
    (st : RecorderState) : RecorderState :=
  let pushed := st.heap st.arrId ++ [e]
  let h1 : Nat → List InteractionEvent :=
    fun i => if i = st.arrId then pushed else st.heap i
  if cap < pushed.length then
    { heap := fun i => if i = st.nextId then sliceNeg cap pushed else h1 i,
      arrId := st.nextId, nextId := st.nextId + 1 }
  else
    { st with heap := h1 }

/-- A value returned by SessionRecorder.getRecording (lines 420-425): the
object spread copies the top-level fields, so the snapshot holds the same
interactions array reference as the live document, and endTime is set to
the current time. -/
structure RecordingSnapshot where
  interactionsRef : Nat
  endTime : Int
deriving DecidableEq

/-- SessionRecorder.getRecording: a shallow spread of this.recording with
endTime set to now. -/
def getRecording (now : Int) (st : RecorderState) : RecordingSnapshot :=
  { interactionsRef := st.arrId, endTime := now }

/-- The interactions a retained snapshot shows when read under the later
recorder state st (the snapshot holds a live array reference). -/
def snapshotInteractions (st : RecorderState) (snap : RecordingSnapshot) :
    List InteractionEvent :=
  st.heap snap.interactionsRef

/-- The recorder's own current in-memory interactions sequence. -/
def currentInteractions (st : RecorderState) : List InteractionEvent :=
  st.heap st.arrId

/-- Recording a list of interactions in order on a fresh recorder. -/
def recordAll (cap : Nat) (es : List InteractionEvent) : RecorderState :=
  es.foldl (fun st e => recordInteraction cap e st) initialRecorder

/-! ### List lemmas about keeping the last cap elements -/

theorem takeLast_length_le {α : Type} (cap : Nat) (l : List α) :
    (takeLast cap l).length ≤ cap := by
  simp only [takeLast, List.length_drop]
  omega

theorem takeLast_of_length_le {α : Type} {cap : Nat} {l : List α}
    (h : l.length ≤ cap) : takeLast cap l = l := by
  simp [takeLast, Nat.sub_eq_zero_of_le h]

theorem takeLast_append_left {α : Type} (cap : Nat) (front zs : List α)
    (h : cap ≤ zs.length) : takeLast cap (front ++ zs) = takeLast cap zs := by
  simp only [takeLast, List.length_append]
  rw [List.drop_append_eq_append_drop]
  have h1 : front.length ≤ front.length + zs.length - cap := by omega
  rw [List.drop_eq_nil_of_le h1, List.nil_append]
  congr 1
  omega

theorem takeLast_takeLast_append {α : Type} (cap : Nat) (xs ys : List α) :
    takeLast cap (takeLast cap xs ++ ys) = takeLast cap (xs ++ ys) := by
  by_cases hx : xs.length ≤ cap
  · rw [takeLast_of_length_le hx]
  · have hlen : (takeLast cap xs).length = cap := by
      simp only [takeLast, List.length_drop]
      omega
    have hsplit : xs = xs.take (xs.length - cap) ++ takeLast cap xs := by
      simp only [takeLast]
      exact (List.take_append_drop (xs.length - cap) xs).symm
    conv_rhs => rw [hsplit]
    rw [List.append_assoc]
    rw [takeLast_append_left cap (xs.take (xs.length - cap)) (takeLast cap xs ++ ys)]
    rw [List.length_append, hlen]
    omega

theorem recordInteractionStep_eq_takeLast {cap : Nat} (hcap : 0 < cap)
    {l : List InteractionEvent} (hl : l.length ≤ cap) (e : InteractionEvent) :
    recordInteractionStep cap l e = takeLast cap (l ++ [e]) := by
  unfold recordInteractionStep sliceNeg
  by_cases h : cap < (l ++ [e]).length
  · rw [if_pos h, if_neg (Nat.pos_iff_ne_zero.mp hcap)]
    rfl
  · rw [if_neg h]
    exact (takeLast_of_length_le (Nat.le_of_not_lt h)).symm

theorem foldl_recordInteractionStep_eq_takeLast {cap : Nat} (hcap : 0 < cap) :
    ∀ (es l : List InteractionEvent), l.length ≤ cap →
      es.foldl (recordInteractionStep cap) l = takeLast cap (l ++ es)
  | [], l, hl => by
      rw [List.foldl_nil, List.append_nil, takeLast_of_length_le hl]
  | e :: es, l, hl => by
      rw [List.foldl_cons, recordInteractionStep_eq_takeLast hcap hl e,
        foldl_recordInteractionStep_eq_takeLast hcap es _
          (takeLast_length_le cap (l ++ [e])),
        takeLast_takeLast_append, List.append_assoc, List.singleton_append]

/-! ### Bridging the aliasing model to the list-level step -/

theorem currentInteractions_recordInteraction (cap : Nat) (e : InteractionEvent)
    (st : RecorderState) (hfresh : st.arrId < st.nextId) :
    currentInteractions (recordInteraction cap e st)
        = recordInteractionStep cap (currentInteractions st) e ∧
      (recordInteraction cap e st).arrId < (recordInteraction cap e st).nextId := by
  unfold currentInteractions recordInteraction recordInteractionStep
  by_cases h : cap < (st.heap st.arrId ++ [e]).length
  · rw [if_pos h, if_pos h]
    constructor
    · simp
    · simp
  · rw [if_neg h, if_neg h]
    constructor
    · simp
    · exact hfresh

theorem currentInteractions_foldl (cap : Nat) :
    ∀ (es : List InteractionEvent) (st : RecorderState),
      st.arrId < st.nextId →
      currentInteractions (es.foldl (fun st e => recordInteraction cap e st) st)
        = es.foldl (recordInteractionStep cap) (currentInteractions st)
  | [], st, _ => by rw [List.foldl_nil, List.foldl_nil]
  | e :: es, st, hfresh => by
      rw [List.foldl_cons, List.foldl_cons]
      have h := currentInteractions_recordInteraction cap e st hfresh
      rw [currentInteractions_foldl cap es _ h.2, h.1]

/-- C8: with a positive cap, the in-memory interactions sequence after any
run of recordInteraction calls is exactly the last cap recorded events in
insertion order; in particular it never exceeds cap elements at any point
of the run. -/
theorem recordInteraction_bounded_newest (cap : Nat) (es : List InteractionEvent)
    (hcap : 0 < cap) :
    currentInteractions (recordAll cap es) = takeLast cap es ∧
      ∀ k, (currentInteractions (recordAll cap (es.take k))).length ≤ cap := by
  have key : ∀ l : List InteractionEvent,
      currentInteractions (recordAll cap l) = takeLast cap l := by
    intro l
    unfold recordAll
    rw [currentInteractions_foldl cap l initialRecorder (by decide)]
    have : currentInteractions initialRecorder = [] := rfl
    rw [this, foldl_recordInteractionStep_eq_takeLast hcap l [] (by simp),
      List.nil_append]
  refine ⟨key es, fun k => ?_⟩
  rw [key (es.take k)]
  exact takeLast_length_le cap (es.take k)

/-- Witness for C8: cap 3, five clicks on button-0 .. button-4; the
retained interactions are the three newest in order. -/
theorem recordInteraction_bounded_newest_witness :
    0 < 3 ∧
    currentInteractions (recordAll 3
        [⟨"click", 0, "button-0"⟩, ⟨"click", 1, "button-1"⟩, ⟨"click", 2, "button-2"⟩,
          ⟨"click", 3, "button-3"⟩, ⟨"click", 4, "button-4"⟩])
      = takeLast 3
        [⟨"click", 0, "button-0"⟩, ⟨"click", 1, "button-1"⟩, ⟨"click", 2, "button-2"⟩,
          ⟨"click", 3, "button-3"⟩, ⟨"click", 4, "button-4"⟩] ∧
    takeLast 3
        [(⟨"click", 0, "button-0"⟩ : InteractionEvent), ⟨"click", 1, "button-1"⟩,
          ⟨"click", 2, "button-2"⟩, ⟨"click", 3, "button-3"⟩, ⟨"click", 4, "button-4"⟩]
      = [⟨"click", 2, "button-2"⟩, ⟨"click", 3, "button-3"⟩, ⟨"click", 4, "button-4"⟩] :=
  ⟨by decide,
    (recordInteraction_bounded_newest 3
      [⟨"click", 0, "button-0"⟩, ⟨"click", 1, "button-1"⟩, ⟨"click", 2, "button-2"⟩,
        ⟨"click", 3, "button-3"⟩, ⟨"click", 4, "button-4"⟩] (by decide)).1,
    by decide⟩

/-! ### C6: getRecording and snapshot aliasing -/

/-- Counterexample to C6: getRecording is a shallow spread, so the
snapshot's interactions array is aliased with the live document; the
first recordInteraction after the snapshot pushes onto that very array,
so the previously returned snapshot changes. -/
theorem getRecording_snapshot_aliasing_cex :
    snapshotInteractions
        (recordInteraction 3 ⟨"click", 100, "button-0"⟩ initialRecorder)
        (getRecording 100 initialRecorder)
      ≠ snapshotInteractions initialRecorder (getRecording 100 initialRecorder) := by
  decide

/-- C6 as amended: getRecording returns a fresh top-level object with
endTime set to the current time, but the interactions array is shared by
reference; an interaction recorded after the call appears in (mutates)
the previously returned snapshot's array.  (A capacity trim only rebinds
the recorder's own reference; the push is visible to the snapshot either
way.) -/
theorem getRecording_endTime_and_aliasing (st : RecorderState)
    (hfresh : st.arrId ≠ st.nextId) (now : Int) (e : InteractionEvent) (cap : Nat) :
    (getRecording now st).endTime = now ∧
    snapshotInteractions (recordInteraction cap e st) (getRecording now st)
      = snapshotInteractions st (getRecording now st) ++ [e] := by
  refine ⟨rfl, ?_⟩
  unfold snapshotInteractions recordInteraction getRecording
  by_cases h : cap < (st.heap st.arrId ++ [e]).length
  · rw [if_pos h]
    simp only
    rw [if_neg hfresh]
    simp
  · rw [if_neg h]
    simp

/-- Witness for the amended C6 at the fresh recorder. -/
theorem getRecording_endTime_and_aliasing_witness :
    initialRecorder.arrId ≠ initialRecorder.nextId ∧
    ((getRecording 100 initialRecorder).endTime = 100 ∧
      snapshotInteractions
          (recordInteraction 3 ⟨"click", 100, "button-0"⟩ initialRecorder)
          (getRecording 100 initialRecorder)
        = snapshotInteractions initialRecorder (getRecording 100 initialRecorder)
            ++ [⟨"click", 100, "button-0"⟩]) :=
  ⟨by decide,
    getRecording_endTime_and_aliasing initialRecorder (by decide) 100
      ⟨"click", 100, "button-0"⟩ 3⟩

/-! ## Version check service (src/src/version-check/version-check-service.ts)

The service runs on the single-threaded event loop.  checkForUpdate's
synchronous prefix — the isChecking guard, the updateState that sets
isChecking, and the launch of the adapter's update probe — runs without
interruption; the method then suspends at the await, so a second call
made while the probe is pending runs its own synchronous prefix against
the updated state. -/

/-- The published state of a VersionCheckService (version-check types.ts). -/
structure VCState where
  updateAvailable : Bool
  isChecking : Bool
  lastCheckTime : Option Int
  serviceWorkerAvailable : Bool
deriving DecidableEq

/-- Synchronous prefix of VersionCheckService.checkForUpdate (lines
160-166): if a check is in flight return immediately; otherwise set
isChecking and invoke this.swAdapter.update().  Returns none when the
early return fired (no probe invoked), and the state at the suspension
point when the probe was invoked. -/
def checkForUpdateStart (s : VCState) : Option VCState :=
  if s.isChecking then none
  else some { s with isChecking := true }

/-- Result of one complete checkForUpdate execution: the final state, the
sequence of states handed to listeners by updateState, and the writes
issued to the key-value storage. -/
structure VCRun where
  final : VCState
  notified : List VCState
  kvWrites : List (String × Int)
deriving DecidableEq

/-- Continuation of checkForUpdate after the awaited probe settles (lines
166-180): on success record lastCheckTime, persist it under storageKey and
refresh serviceWorkerAvailable from the adapter registration; on failure
only log; in either case finally clear isChecking.  Every updateState
notifies listeners. -/
def checkForUpdateFinish (probeFails : Bool) (registrationPresent : Bool)
    (now : Int) (storageKey : String) (s1 : VCState) : VCRun :=
  if probeFails then
    { final := { s1 with isChecking := false },
      notified := [{ s1 with isChecking := false }],
      kvWrites := [] }
  else
    let s2 := { s1 with lastCheckTime := some now,
                        serviceWorkerAvailable := registrationPresent }
    { final := { s2 with isChecking := false },
      notified := [s2, { s2 with isChecking := false }],
      kvWrites := [(storageKey, now)] }

/-- A full, uninterleaved run of checkForUpdate. -/
def checkForUpdateRun (probeFails : Bool) (registrationPresent : Bool)
    (now : Int) (storageKey : String) (s : VCState) : VCRun :=
  match checkForUpdateStart s with
  | none => { final := s, notified := [], kvWrites := [] }
  | some s1 =>
      let r := checkForUpdateFinish probeFails registrationPresent now storageKey s1
      { r with notified := s1 :: r.notified }

/-- Number of probe invocations observed when two checkForUpdate calls
run their synchronous prefixes back to back, both while the first probe
(if any) is still pending. -/
def twoConcurrentChecksProbeCount (s : VCState) : Nat :=
  match checkForUpdateStart s with
  | none =>
      match checkForUpdateStart s with
      | none => 0
      | some _ => 1
  | some s1 =>
      match checkForUpdateStart s1 with
      | none => 1
      | some _ => 2

/-- C2: while a check is in flight a further checkForUpdate call returns
immediately without invoking the adapter's update probe, so two
concurrent calls cause exactly one probe invocation. -/
theorem checkForUpdate_mutual_exclusion :
    (∀ s : VCState, s.isChecking = true → checkForUpdateStart s = none) ∧
    (∀ s : VCState, s.isChecking = false → twoConcurrentChecksProbeCount s = 1) := by
  constructor
  · intro s h
    unfold checkForUpdateStart
    rw [h]
    simp
  · intro s h
    unfold twoConcurrentChecksProbeCount checkForUpdateStart
    rw [h]
    simp

/-- Witness for C2: an idle state and an in-flight state. -/
theorem checkForUpdate_mutual_exclusion_witness :
    (VCState.mk false true none false).isChecking = true ∧
    (VCState.mk false false none false).isChecking = false ∧
    checkForUpdateStart (VCState.mk false true none false) = none ∧
    twoConcurrentChecksProbeCount (VCState.mk false false none false) = 1 :=
  ⟨rfl, rfl,
    checkForUpdate_mutual_exclusion.1 (VCState.mk false true none false) rfl,
    checkForUpdate_mutual_exclusion.2 (VCState.mk false false none false) rfl⟩

/-- C10: when the adapter's update probe rejects, checkForUpdate resolves
normally; isChecking is set at the start and cleared at the end, every
other state field keeps its pre-call value, and nothing is written to the
key-value storage. -/
theorem checkForUpdate_probe_failure_no_effect (s : VCState)
    (h : s.isChecking = false) (registrationPresent : Bool) (now : Int)
    (storageKey : String) :
    checkForUpdateRun true registrationPresent now storageKey s =
      { final := s,
        notified := [{ s with isChecking := true }, { s with isChecking := false }],
        kvWrites := [] } := by
  unfold checkForUpdateRun checkForUpdateStart checkForUpdateFinish
  rw [h]
  simp only [Bool.false_eq_true, if_false, if_true]
  have hfinal : ({ { s with isChecking := true } with isChecking := false } : VCState)
      = s := by
    cases s
    simp_all
  rw [hfinal]

/-- Witness for C10 at a concrete pre-call state. -/
theorem checkForUpdate_probe_failure_no_effect_witness :
    (VCState.mk true false (some 5) true).isChecking = false ∧
    checkForUpdateRun true false 42 "pwa-last-update-check"
        (VCState.mk true false (some 5) true) =
      { final := VCState.mk true false (some 5) true,
        notified := [VCState.mk true true (some 5) true,
          VCState.mk true false (some 5) true],
        kvWrites := [] } :=
  ⟨rfl,
    checkForUpdate_probe_failure_no_effect (VCState.mk true false (some 5) true)
      rfl false 42 "pwa-last-update-check"⟩

/-! ## Shake gesture detector (src/src/bug-reporter/shake-detector.ts)

Acceleration axes are modelled as rationals; a DeviceMotionEvent carries
two nullable vectors whose axes are themselves nullable.  The code
compares Math.sqrt(x*x + y*y + z*z) with the threshold; for the
nonnegative threshold this is equivalent to the exact squared comparison
x*x + y*y + z*z > threshold * threshold used here. -/

/-- A nullable 3-axis acceleration vector. -/
structure Vec3 where
  x : Option ℚ
  y : Option ℚ
  z : Option ℚ
deriving DecidableEq

/-- A DeviceMotionEvent: both vectors may be null. -/
structure MotionEvent where
  acceleration : Option Vec3
  accelerationIncludingGravity : Option Vec3
deriving DecidableEq

/-- The vector handleMotion actually reads (lines 149-150):
event.accelerationIncludingGravity || event.acceleration.  JavaScript's
or-operator takes the left operand when it is non-null, so the
gravity-including vector is preferred, despite the comment above these
lines saying the opposite. -/
def pickAcceleration (e : MotionEvent) : Option Vec3 :=
  match e.accelerationIncludingGravity with
  | some v => some v
  | none => e.acceleration

/-- Vector selection as the specification words it: prefer the
gravity-compensated event.acceleration and fall back to the raw
gravity-including vector only when the compensated one is absent.
Stated only to compare against pickAcceleration. -/
def pickAccelerationSpec (e : MotionEvent) : Option Vec3 :=
  match e.acceleration with
  | some v => some v
  | none => e.accelerationIncludingGravity

/-- Shake detector configuration; the source defaults are threshold 25
and cooldown 2000 ms. -/
structure ShakeConfig where
  threshold : ℚ
  cooldownMs : Int
deriving DecidableEq

/-- The defaults DEFAULT_THRESHOLD = 25 and DEFAULT_COOLDOWN_MS = 2000. -/
def defaultShakeConfig : ShakeConfig :=
  { threshold := 25, cooldownMs := 2000 }

/-- Mutable state of a ShakeDetector relevant to motion handling:
the private cooldown timestamp (initially 0), the published
lastShakeTime, the registered shake listeners (by id, in registration
order), and the log of callback invocations so far. -/
structure ShakeDetectorState where
  lastShakeTimestamp : Int
  lastShakeTime : Option Int
  shakeListeners : List Nat
  invoked : List Nat
deriving DecidableEq

/-- ShakeDetector.handleMotion (lines 147-178): pick a vector, discard the
sample if the vector or any axis is missing, compare the magnitude with
the threshold, apply the cooldown, and on acceptance update
lastShakeTimestamp / lastShakeTime and invoke every registered shake
listener once, in order. -/
def handleMotion (cfg : ShakeConfig) (now : Int) (e : MotionEvent)
    (st : ShakeDetectorState) : ShakeDetectorState :=
  match pickAcceleration e with
  | none => st
  | some a =>
    match a.x, a.y, a.z with
    | some x, some y, some z =>
      if x * x + y * y + z * z > cfg.threshold * cfg.threshold then
        if now - st.lastShakeTimestamp > cfg.cooldownMs then
          { st with
              lastShakeTimestamp := now, lastShakeTime := some now,
              invoked := st.invoked ++ st.shakeListeners }
        else st
      else st
    | _, _, _ => st

/-- C4 failing input: both vectors present; the gravity-compensated one is
(0,0,0) while the gravity-including one is (20,20,20). -/
def bothVectorsEvent : MotionEvent :=
  { acceleration := some ⟨some 0, some 0, some 0⟩,
    accelerationIncludingGravity := some ⟨some 20, some 20, some 20⟩ }

/-- C4: contrary to the claim (and to the comment in the source), when
both vectors are present handleMotion computes the magnitude from the
gravity-including vector: on the failing input the compensated magnitude
is 0, yet the detector fires a shake from the raw vector's magnitude. -/
theorem handleMotion_prefers_gravity_including :
    pickAcceleration bothVectorsEvent
        = bothVectorsEvent.accelerationIncludingGravity ∧
    pickAccelerationSpec bothVectorsEvent = bothVectorsEvent.acceleration ∧
    (handleMotion defaultShakeConfig 10000 bothVectorsEvent
        ⟨0, none, [0], []⟩).invoked = [0] := by
  refine ⟨rfl, rfl, ?_⟩
  norm_num [handleMotion, pickAcceleration, bothVectorsEvent, defaultShakeConfig]

/-- C9: a sample whose picked vector has all axes present and squared
magnitude above the default threshold squared fires every registered
callback exactly once when more than the 2000 ms cooldown has elapsed
since the last accepted shake, and has no effect at all otherwise. -/
theorem handleMotion_threshold_cooldown (st : ShakeDetectorState)
    (e : MotionEvent) (x y z : ℚ) (now : Int)
    (hpick : pickAcceleration e = some ⟨some x, some y, some z⟩)
    (hmag : x * x + y * y + z * z > 25 * 25) :
    (now - st.lastShakeTimestamp > 2000 →
      handleMotion defaultShakeConfig now e st =
        { st with
            lastShakeTimestamp := now, lastShakeTime := some now,
            invoked := st.invoked ++ st.shakeListeners }) ∧
    (¬ now - st.lastShakeTimestamp > 2000 →
      handleMotion defaultShakeConfig now e st = st) := by
  unfold handleMotion
  rw [hpick]
  simp only [defaultShakeConfig]
  rw [if_pos hmag]
  constructor
  · intro h
    rw [if_pos h]
  · intro h
    rw [if_neg h]

/-- A sample carrying only the raw vector (20,20,20). -/
def rawTwentyEvent : MotionEvent :=
  { acceleration := none,
    accelerationIncludingGravity := some ⟨some 20, some 20, some 20⟩ }

/-- Witness for C9: acceleration (20,20,20), squared magnitude 1200 over
625, fires at t=10000 from a fresh detector, is suppressed at t=11000
(1000 ms after the accepted shake), and fires once more at t=12100
(2100 ms after). -/
theorem handleMotion_threshold_cooldown_witness :
    pickAcceleration rawTwentyEvent = some ⟨some 20, some 20, some 20⟩ ∧
    (20 * 20 + 20 * 20 + 20 * 20 : ℚ) > 25 * 25 ∧
    handleMotion defaultShakeConfig 10000 rawTwentyEvent ⟨0, none, [7], []⟩
      = ⟨10000, some 10000, [7], [7]⟩ ∧
    handleMotion defaultShakeConfig 11000 rawTwentyEvent ⟨10000, some 10000, [7], [7]⟩
      = ⟨10000, some 10000, [7], [7]⟩ ∧
    handleMotion defaultShakeConfig 12100 rawTwentyEvent ⟨10000, some 10000, [7], [7]⟩
      = ⟨12100, some 12100, [7], [7, 7]⟩ :=
  ⟨rfl, by norm_num,
    (handleMotion_threshold_cooldown ⟨0, none, [7], []⟩ rawTwentyEvent 20 20 20 10000 rfl
      (by norm_num)).1 (by norm_num),
    (handleMotion_threshold_cooldown ⟨10000, some 10000, [7], [7]⟩ rawTwentyEvent 20 20 20 11000 rfl
      (by norm_num)).2 (by norm_num),
    (handleMotion_threshold_cooldown ⟨10000, some 10000, [7], [7]⟩ rawTwentyEvent 20 20 20 12100 rfl
      (by norm_num)).1 (by norm_num)⟩

/-! ## Bug report URL builder (src/src/bug-reporter/bug-reporter-service.ts)

The repository carries two versions of buildGitHubIssueUrl: the one in
src/bug-reporter/bug-reporter-service.ts, which appends the screenshot
markdown unconditionally, and the one compiled into
dist/bug-reporter/bug-reporter-service.js (whose TypeScript original also
appears in the repository), which skips data: screenshots and emits a
manual-attachment placeholder instead.  Both are embedded here. -/

/-- Uppercase hex digit, as produced by encodeURIComponent. -/
def hexDigit (n : Nat) : Char :=
  if n < 10 then Char.ofNat (48 + n) else Char.ofNat (55 + n)

/-- UTF-8 bytes of a character. -/
def utf8Bytes (c : Char) : List Nat :=
  let n := c.toNat
  if n < 128 then [n]
  else if n < 2048 then [192 + n / 64, 128 + n % 64]
  else if n < 65536 then [224 + n / 4096, 128 + (n / 64) % 64, 128 + n % 64]
  else [240 + n / 262144, 128 + (n / 4096) % 64, 128 + (n / 64) % 64, 128 + n % 64]

/-- Characters encodeURIComponent leaves unescaped: alphanumerics and
minus, underscore, dot, bang, tilde, star, quote, parentheses. -/
def isURIUnreserved (c : Char) : Bool :=
  let n := c.toNat
  (65 ≤ n && n ≤ 90) || (97 ≤ n && n ≤ 122) || (48 ≤ n && n ≤ 57) ||
    n == 45 || n == 95 || n == 46 || n == 33 || n == 126 || n == 42 ||
    n == 39 || n == 40 || n == 41

/-- Percent-encoding of one character: each UTF-8 byte as %HH. -/
def percentEncodeChar (c : Char) : List Char :=
  (utf8Bytes c).flatMap fun b => [Char.ofNat 37, hexDigit (b / 16), hexDigit (b % 16)]

/-- JavaScript's encodeURIComponent. -/
def encodeURIComponent (s : String) : String :=
  String.mk (s.data.flatMap fun c => if isURIUnreserved c then [c] else percentEncodeChar c)

/-- Boolean substring test on character lists. -/
def containsSub (pat : List Char) : List Char → Bool
  | [] => pat.isEmpty
  | c :: t => pat.isPrefixOf (c :: t) || containsSub pat t

/-- The BugReportData fields buildGitHubIssueUrl reads. -/
structure BugReportData where
  title : String
  description : String
  screenshot : Option String
  includeMetadata : Option Bool
deriving DecidableEq

/-- buildGitHubIssueUrl as written in
src/bug-reporter/bug-reporter-service.ts (lines 126-149): default title
when empty, optional pretty-printed metadata block (modelled as the
already-serialized string), then the screenshot markdown appended for any
non-empty screenshot value, data URI or not. -/
def buildGitHubIssueUrl (repository : String) (data : BugReportData)
    (metadata : Option String) : String :=
  let title := encodeURIComponent (if data.title == "" then "Bug Report" else data.title)
  let body0 := data.description
  let body1 :=
    if data.includeMetadata ≠ some false then
      match metadata with
      | some m => body0 ++ "\n\n---\n\n**Environment:**\n```json\n" ++ m ++ "\n```"
      | none => body0
    else body0
  let body2 :=
    match data.screenshot with
    | some s =>
        if s == "" then body1
        else body1 ++ "\n\n**Screenshot:**\n![Screenshot](" ++ s ++ ")"
    | none => body1
  "https://github.com/" ++ repository ++ "/issues/new?title=" ++ title
    ++ "&body=" ++ encodeURIComponent body2

/-- buildGitHubIssueUrl as shipped in
dist/bug-reporter/bug-reporter-service.js (and duplicated in the
repository's TypeScript): a non-data screenshot URL is embedded, a data:
screenshot gets the manual-attachment placeholder; the MAX_URL_LENGTH
check only warns and does not change the returned URL. -/
def buildGitHubIssueUrlShipped (repository : String) (data : BugReportData)
    (metadata : Option String) : String :=
  let title := encodeURIComponent (if data.title == "" then "Bug Report" else data.title)
  let body0 := data.description
  let body1 :=
    if data.includeMetadata ≠ some false then
      match metadata with
      | some m => body0 ++ "\n\n---\n\n**Environment:**\n```json\n" ++ m ++ "\n```"
      | none => body0
    else body0
  let body2 :=
    match data.screenshot with
    | some s =>
        if s == "" then body1
        else if !("data:".data.isPrefixOf s.data) then
          body1 ++ "\n\n**Screenshot:**\n![Screenshot](" ++ s ++ ")"
        else
          body1 ++ "\n\n**Screenshot:** _(paste from clipboard or upload separately)_"
    | none => body1
  "https://github.com/" ++ repository ++ "/issues/new?title=" ++ title
    ++ "&body=" ++ encodeURIComponent body2

/-- C3 failing input: a bug report whose screenshot is a data URI. -/
def dataUriReport : BugReportData :=
  { title := "Bug", description := "Desc",
    screenshot := some "data:image/png;base64,AAAA",
    includeMetadata := some false }

/-- C3 at the failing input: the src version embeds the data-URI
screenshot into the returned URL (percent-encoded by encodeURIComponent)
and emits no manual-attachment placeholder; the shipped version emits the
placeholder and no data URI. -/
theorem buildGitHubIssueUrl_embeds_data_uri :
    containsSub "data%3Aimage%2Fpng%3Bbase64%2CAAAA".data
        (buildGitHubIssueUrl "owner/repo" dataUriReport none).data = true ∧
    containsSub "_(paste%20from%20clipboard%20or%20upload%20separately)_".data
        (buildGitHubIssueUrl "owner/repo" dataUriReport none).data = false ∧
    containsSub "data%3A".data
        (buildGitHubIssueUrlShipped "owner/repo" dataUriReport none).data = false ∧
    containsSub "_(paste%20from%20clipboard%20or%20upload%20separately)_".data
        (buildGitHubIssueUrlShipped "owner/repo" dataUriReport none).data = true := by
  refine ⟨rfl, rfl, by decide, by decide⟩

/-! ## Failure behaviour of the store operations

A run of a store operation is parameterised by which step of it fails:
opening the database, or the transaction/request work done against the
opened database.  Except models a settled promise: ok for resolved,
error for rejected. -/

/-- Which step of a store operation fails, if any. -/
structure DBFailure where
  openFails : Bool
  txFails : Bool
deriving DecidableEq

/-- SyncLogService.getLogs (part_017 lines 72-98): open the database and
iterate the timestamp index newest-first.  The body has no try/catch, so
both an open failure and a cursor-request failure reject to the caller;
the finally clause only closes the database. -/
def getLogs (f : DBFailure) (store : List SyncLog) : Except String (List SyncLog) :=
  if f.openFails then Except.error "open failed"
  else if f.txFails then Except.error "request failed"
  else Except.ok (sortByTimestamp store).reverse

/-- getPersistedSessions (part_007 lines 195-224): the await of
openSessionDB sits inside the try block, so an open failure lands in the
catch and yields []; the promise wrapping the read transaction, however,
is returned from the try block without being awaited, so its rejection is
not caught and rejects to the caller.  On success the getAll result
(ascending startTime) is reversed, newest first. -/
def getPersistedSessions (f : DBFailure) (store : List SessionRec) :
    Except String (List SessionRec) :=
  if f.openFails then Except.ok []
  else if f.txFails then Except.error "Failed to load sessions"
  else Except.ok (sortByStartTime store).reverse

/-- Counterexample to C5: when opening the store fails,
SyncLogService.getLogs rejects instead of resolving with an empty list. -/
theorem getLogs_open_failure_rejects_cex :
    getLogs ⟨true, false⟩ [] = Except.error "open failed" ∧
    getLogs ⟨true, false⟩ [] ≠ Except.ok [] := by
  refine ⟨rfl, by simp [getLogs]⟩

/-- C5 as amended: the session store's read path returns an empty result
when opening fails, but a failure of its read transaction still rejects;
the sync log's getLogs has no guard at all and propagates both open and
transaction failures; on success both read paths return the entries
newest-first. -/
theorem read_path_failure_behaviour :
    (∀ (f : DBFailure) (store : List SessionRec), f.openFails = true →
      getPersistedSessions f store = Except.ok []) ∧
    (∀ store : List SessionRec,
      getPersistedSessions ⟨false, true⟩ store = Except.error "Failed to load sessions") ∧
    (∀ (f : DBFailure) (store : List SyncLog), f.openFails = true ∨ f.txFails = true →
      ∃ msg, getLogs f store = Except.error msg) ∧
    (∀ store : List SyncLog,
      getLogs ⟨false, false⟩ store = Except.ok (sortByTimestamp store).reverse) ∧
    (∀ store : List SessionRec,
      getPersistedSessions ⟨false, false⟩ store = Except.ok (sortByStartTime store).reverse) := by
  refine ⟨?_, ?_, ?_, ?_, ?_⟩
  · intro f store h
    unfold getPersistedSessions
    rw [h]
    simp
  · intro store
    rfl
  · intro f store h
    unfold getLogs
    rcases h with h | h
    · rw [h]
      exact ⟨"open failed", by simp⟩
    · rcases hb : f.openFails with _ | _
      · rw [h]
        exact ⟨"request failed", by simp⟩
      · rw [h]
        exact ⟨"open failed", by simp⟩
  · intro store
    rfl
  · intro store
    rfl

/-- Witness for the amended C5 at concrete failure scenarios. -/
theorem read_path_failure_behaviour_witness :
    (DBFailure.mk true false).openFails = true ∧
    getPersistedSessions ⟨true, false⟩ ([⟨1, 4⟩] : List SessionRec) = Except.ok [] ∧
    getPersistedSessions ⟨false, true⟩ ([⟨1, 4⟩] : List SessionRec)
      = Except.error "Failed to load sessions" ∧
    (∃ msg, getLogs ⟨true, false⟩ ([] : List SyncLog) = Except.error msg) :=
  ⟨rfl,
    read_path_failure_behaviour.1 ⟨true, false⟩ [⟨1, 4⟩] rfl,
    read_path_failure_behaviour.2.1 [⟨1, 4⟩],
    read_path_failure_behaviour.2.2.1 ⟨true, false⟩ [] (Or.inl rfl)⟩

/-! ## addLog failure semantics (part_017 lines 42-71, C7) -/

/-- A JavaScript Error as inspected by addLog's catch clause. -/
structure JSError where
  name : String
  message : String
deriving DecidableEq

/-- The quota test in addLog's catch (lines 63-64): the error's name is
"QuotaExceededError" or its message contains "quota". -/
def isQuotaError (e : JSError) : Bool :=
  e.name == "QuotaExceededError" || containsSub "quota".data e.message.data

/-- Which awaited step inside addLog's try block fails. -/
inductive AddLogFailPoint
  | atOpen
  | atSave
  | atEnforce
deriving DecidableEq

/-- The distinguished error addLog rethrows on quota exhaustion. -/
def quotaErrorMessage : String :=
  "Storage quota exceeded. Please clear old data or increase storage quota."

/-- SyncLogService.addLog (lines 42-71): build the log, open the
database, save, then enforce the limit, all inside one try; the catch
rethrows a distinguished error when the failure is a quota condition and
otherwise only logs, resolving normally.  A failure before the save
leaves the store unchanged; a failure in enforceLimit happens after the
entry was saved. -/
def addLog (failure : Option (AddLogFailPoint × JSError)) (maxLogs : Nat)
    (log : SyncLog) (store : List SyncLog) : Except String (List SyncLog) :=
  match failure with
  | none => Except.ok (enforceLimit maxLogs (store ++ [log]))
  | some (p, err) =>
      if isQuotaError err then Except.error quotaErrorMessage
      else
        match p with
        | .atOpen => Except.ok store
        | .atSave => Except.ok store
        | .atEnforce => Except.ok (store ++ [log])

/-- True when a settled promise resolved. -/
def resolved {ε α : Type} : Except ε α → Bool
  | Except.ok _ => true
  | Except.error _ => false

/-- C7: a storage-quota-exceeded failure makes addLog reject with the
distinguished error, and every other failure (at open, save or
enforcement) resolves normally, as does the failure-free run. -/
theorem addLog_quota_distinguished :
    (∀ (p : AddLogFailPoint) (err : JSError) (maxLogs : Nat) (log : SyncLog)
        (store : List SyncLog), isQuotaError err = true →
      addLog (some (p, err)) maxLogs log store = Except.error quotaErrorMessage) ∧
    (∀ (p : AddLogFailPoint) (err : JSError) (maxLogs : Nat) (log : SyncLog)
        (store : List SyncLog), isQuotaError err = false →
      resolved (addLog (some (p, err)) maxLogs log store) = true) ∧
    (∀ (maxLogs : Nat) (log : SyncLog) (store : List SyncLog),
      addLog none maxLogs log store = Except.ok (enforceLimit maxLogs (store ++ [log]))) := by
  refine ⟨?_, ?_, fun _ _ _ => rfl⟩
  · intro p err maxLogs log store h
    cases p <;> simp [addLog, h]
  · intro p err maxLogs log store h
    cases p <;> simp [addLog, h, resolved]

/-- Witness for C7: a QuotaExceededError by name, a quota condition by
message, and an unrelated failure. -/
theorem addLog_quota_distinguished_witness :
    isQuotaError ⟨"QuotaExceededError", "boom"⟩ = true ∧
    isQuotaError ⟨"DOMError", "storage quota reached"⟩ = true ∧
    isQuotaError ⟨"TypeError", "oops"⟩ = false ∧
    addLog (some (.atSave, ⟨"QuotaExceededError", "boom"⟩)) 2 ⟨9, 9, "m"⟩ []
      = Except.error quotaErrorMessage ∧
    addLog (some (.atSave, ⟨"DOMError", "storage quota reached"⟩)) 2 ⟨9, 9, "m"⟩ []
      = Except.error quotaErrorMessage ∧
    resolved (addLog (some (.atOpen, ⟨"TypeError", "oops"⟩)) 2 ⟨9, 9, "m"⟩ []) = true :=
  ⟨by decide, by decide, by decide,
    addLog_quota_distinguished.1 .atSave ⟨"QuotaExceededError", "boom"⟩ 2 ⟨9, 9, "m"⟩ []
      (by decide),
    addLog_quota_distinguished.1 .atSave ⟨"DOMError", "storage quota reached"⟩ 2 ⟨9, 9, "m"⟩ []
      (by decide),
    addLog_quota_distinguished.2.1 .atOpen ⟨"TypeError", "oops"⟩ 2 ⟨9, 9, "m"⟩ []
      (by decide)⟩

end PwaUtils
